import Mathlib

/-!
# Verification of the Summly extraction-and-summarization pipeline

Shallow embedding of the core pipeline of the Summly repository
(`file_reader.py`, `processor.py`, and the worker loop of `window.py`):

* plain-text extraction with an ordered list of candidate encodings
  (`FileReader._read_txt`, `FileReader.read_file`);
* prompt-based multilingual summarization with a quality-gate fallback
  (`TextProcessor.generate_summary`), with the external generation model
  abstracted as an oracle from generation parameters to decoded text;
* filename-safe sanitization (`TextProcessor.clean_filename`);
* the end-to-end facade (`TextProcessor.process_file`) and the worker
  thread's per-file loop (`FileProcessingThread.run`).

Machine strings are modelled as Lean `String`s manipulated through their
underlying `List Char`, bytes as `Nat` values `< 256`, and Python
exceptions as an explicit error type threaded through `Except`.
-/

/-! ## Python string primitives

Python 3 `str.strip()` / `str.split()` (no arguments) and the regex class
`\s` all use the Unicode whitespace set below (`Py_UNICODE_ISSPACE`). -/

/-- Code points Python 3 treats as whitespace (`str.isspace`, `str.strip()`,
`str.split()`, and `\s` in regular expressions over `str`). -/
def pySpaceCodes : List Nat :=
  [9, 10, 11, 12, 13, 28, 29, 30, 31, 32, 0x85, 0xA0, 0x1680,
   0x2000, 0x2001, 0x2002, 0x2003, 0x2004, 0x2005, 0x2006, 0x2007,
   0x2008, 0x2009, 0x200A, 0x2028, 0x2029, 0x202F, 0x205F, 0x3000]

/-- Python's Unicode whitespace test. -/
def pyIsSpace (c : Char) : Bool :=
  pySpaceCodes.contains c.toNat

/-- List-level model of Python `str.strip()` (no arguments). -/
def pyStripL (l : List Char) : List Char :=
  ((l.dropWhile pyIsSpace).reverse.dropWhile pyIsSpace).reverse

/-- Python `str.strip()`. -/
def pyStrip (s : String) : String :=
  ⟨pyStripL s.data⟩

/-- List-level model of Python `str.rstrip()` (no arguments). -/
def pyRstripL (l : List Char) : List Char :=
  (l.reverse.dropWhile pyIsSpace).reverse

/-- Number of maximal non-whitespace runs: `len(s.split())` in Python.
The flag records whether the scan is currently inside a word. -/
def pyWordCountAux (inWord : Bool) : List Char → Nat
  | [] => 0
  | c :: rest =>
    if pyIsSpace c then pyWordCountAux false rest
    else (if inWord then 0 else 1) + pyWordCountAux true rest

/-- `len(s.split())` in Python: the number of whitespace-separated words. -/
def pyWordCount (s : String) : Nat :=
  pyWordCountAux false s.data

/-- Python `s.startswith(pre)`. -/
def pyStartsWith (s pre : String) : Bool :=
  pre.data.isPrefixOf s.data

/-- Python `s[n:]` (slicing by code points). -/
def pyDrop (s : String) (n : Nat) : String :=
  ⟨s.data.drop n⟩

/-- Python `len(s)` (code points). -/
def pyLength (s : String) : Nat :=
  s.data.length

/-- Does `sub` occur as a contiguous run inside `l`? -/
def listContainsRun (sub : List Char) : List Char → Bool
  | [] => sub.isPrefixOf []
  | c :: rest => sub.isPrefixOf (c :: rest) || listContainsRun sub rest

/-- Python `sub in s` (substring containment). -/
def pyContainsSub (s sub : String) : Bool :=
  listContainsRun sub.data s.data

/-! ## Byte-level text codecs

`FileReader._read_txt` opens the file in text mode with each candidate
encoding in turn.  Bytes are modelled as `Nat` values below 256.  The
UTF-8 and latin-1 codecs are implemented in full; for UTF-16 and GBK see
the doc comments of `utf16Decode` and `gbkDecode`. -/

/-- UTF-8 encoding of a single Unicode scalar value. -/
def utf8EncodeChar (n : Nat) : List Nat :=
  if n < 0x80 then [n]
  else if n < 0x800 then [0xC0 + n / 64, 0x80 + n % 64]
  else if n < 0x10000 then
    [0xE0 + n / 4096, 0x80 + (n / 64) % 64, 0x80 + n % 64]
  else
    [0xF0 + n / 262144, 0x80 + (n / 4096) % 64, 0x80 + (n / 64) % 64, 0x80 + n % 64]

/-- Python `s.encode("utf-8")`. -/
def utf8Encode (s : String) : List Nat :=
  s.data.flatMap (fun c => utf8EncodeChar c.toNat)

/-- Parse one scalar value from the front of a strict UTF-8 byte stream
(Python's `bytes.decode("utf-8")`): rejects truncated sequences, stray
continuation bytes, overlong encodings, surrogate code points, and code
points above `0x10FFFF`. -/
def utf8DecodeOne : List Nat → Option (Char × List Nat)
  | [] => none
  | b :: bs =>
    if b < 0x80 then some (Char.ofNat b, bs)
    else if b < 0xC2 then none
    else if b < 0xE0 then
      match bs with
      | b2 :: bs2 =>
        if 0x80 ≤ b2 ∧ b2 < 0xC0 then
          some (Char.ofNat ((b - 0xC0) * 64 + (b2 - 0x80)), bs2)
        else none
      | [] => none
    else if b < 0xF0 then
      match bs with
      | b2 :: b3 :: bs3 =>
        if (if b = 0xE0 then 0xA0 ≤ b2 ∧ b2 < 0xC0
            else if b = 0xED then 0x80 ≤ b2 ∧ b2 < 0xA0
            else 0x80 ≤ b2 ∧ b2 < 0xC0) ∧ (0x80 ≤ b3 ∧ b3 < 0xC0) then
          some (Char.ofNat ((b - 0xE0) * 4096 + (b2 - 0x80) * 64 + (b3 - 0x80)), bs3)
        else none
      | _ => none
    else if b < 0xF5 then
      match bs with
      | b2 :: b3 :: b4 :: bs4 =>
        if (if b = 0xF0 then 0x90 ≤ b2 ∧ b2 < 0xC0
            else if b = 0xF4 then 0x80 ≤ b2 ∧ b2 < 0x90
            else 0x80 ≤ b2 ∧ b2 < 0xC0) ∧ (0x80 ≤ b3 ∧ b3 < 0xC0) ∧ (0x80 ≤ b4 ∧ b4 < 0xC0) then
          some (Char.ofNat
            ((b - 0xF0) * 262144 + (b2 - 0x80) * 4096 + (b3 - 0x80) * 64 + (b4 - 0x80)), bs4)
        else none
      | _ => none
    else none

/-- Decode a whole UTF-8 stream by repeatedly parsing one scalar; the
fuel argument (instantiated with the byte count, an upper bound on the
number of scalars) makes the recursion structural. -/
def utf8DecodeFuel : Nat → List Nat → Option (List Char)
  | _, [] => some []
  | 0, _ :: _ => none
  | fuel + 1, b :: bs =>
    match utf8DecodeOne (b :: bs) with
    | some (c, rest) => (utf8DecodeFuel fuel rest).map (fun cs => c :: cs)
    | none => none

/-- Python `bytes.decode("utf-8")` as an `Option`. -/
def utf8Decode (bs : List Nat) : Option String :=
  (utf8DecodeFuel bs.length bs).map (fun cs => ⟨cs⟩)

/-- latin-1 (ISO-8859-1) maps every byte `b` to code point `b`; decoding
never fails, which is what makes the trailing candidates of
`FileReader._read_txt` unreachable. -/
def latin1Decode (bs : List Nat) : Option String :=
  some ⟨bs.map (fun b => Char.ofNat b)⟩

/-- Python `s.encode("latin-1")` would fail above 0xFF; only decoding is
used by the pipeline. -/
def latin1Encode (s : String) : List Nat :=
  s.data.map (fun c => c.toNat)

/-- Placeholder code-point for an assigned GBK two-byte sequence.  The
mapping is injective into valid non-surrogate scalar values. -/
def gbkChar (b1 b2 : Nat) : Char :=
  Char.ofNat (0xE000 + (b1 - 0x81) * 190 + (b2 - 0x40))

/-- Python `bytes.decode("gbk")` (alias of cp936).  The cp936 character
table lives in the Python codec library, outside this repository; this
model reproduces the codec's domain structure — ASCII bytes decode to
themselves, `0x80` decodes to the euro sign, a two-byte sequence needs a
lead byte in `0x81..0xFE` and a trail byte in `0x40..0xFE` other than
`0x7F`, and anything else (in particular a leading `0xFF`) fails — while
the code points of assigned two-byte sequences are represented by the
injective placeholder `gbkChar`.  No theorem below depends on the
characters produced by a successful two-byte GBK decode, only on which
byte sequences make the codec fail. -/
def gbkDecode : List Nat → Option (List Char)
  | [] => some []
  | b :: bs =>
    if b < 0x80 then (gbkDecode bs).map (fun cs => Char.ofNat b :: cs)
    else if b = 0x80 then (gbkDecode bs).map (fun cs => Char.ofNat 0x20AC :: cs)
    else if b ≤ 0xFE then
      match bs with
      | b2 :: bs2 =>
        if 0x40 ≤ b2 ∧ b2 ≤ 0xFE ∧ b2 ≠ 0x7F then
          (gbkDecode bs2).map (fun cs => gbkChar b b2 :: cs)
        else none
      | [] => none
    else none

/-- `bytes.decode("gbk")` as a `String`. -/
def gbkDecodeStr (bs : List Nat) : Option String :=
  (gbkDecode bs).map (fun cs => ⟨cs⟩)

/-- Split a byte list into little-endian 16-bit code units. -/
def utf16leUnits : List Nat → Option (List Nat)
  | [] => some []
  | [_] => none
  | lo :: hi :: rest => (utf16leUnits rest).map (fun us => (lo + 256 * hi) :: us)

/-- Split a byte list into big-endian 16-bit code units. -/
def utf16beUnits : List Nat → Option (List Nat)
  | [] => some []
  | [_] => none
  | hi :: lo :: rest => (utf16beUnits rest).map (fun us => (lo + 256 * hi) :: us)

/-- Combine UTF-16 code units, pairing surrogates; fails on unpaired
surrogates (as Python's strict codec does). -/
def utf16Combine : List Nat → Option (List Char)
  | [] => some []
  | u :: us =>
    if 0xD800 ≤ u ∧ u < 0xDC00 then
      match us with
      | u2 :: us2 =>
        if 0xDC00 ≤ u2 ∧ u2 < 0xE000 then
          (utf16Combine us2).map
            (fun cs => Char.ofNat (0x10000 + (u - 0xD800) * 1024 + (u2 - 0xDC00)) :: cs)
        else none
      | [] => none
    else if 0xDC00 ≤ u ∧ u < 0xE000 then none
    else (utf16Combine us).map (fun cs => Char.ofNat u :: cs)

/-- Python `bytes.decode("utf-16")`: a BOM selects the byte order and is
dropped; without a BOM the platform's native order is used
(little-endian here, matching the deployment platform). -/
def utf16Decode (bs : List Nat) : Option String :=
  let units :=
    match bs with
    | 0xFF :: 0xFE :: rest => utf16leUnits rest
    | 0xFE :: 0xFF :: rest => utf16beUnits rest
    | _ => utf16leUnits bs
  (units.bind utf16Combine).map (fun cs => ⟨cs⟩)

/-- One UTF-16 little-endian code unit pair per unit of `s.encode("utf-16")`. -/
def utf16leEncodeChar (n : Nat) : List Nat :=
  if n < 0x10000 then [n % 256, n / 256]
  else
    let m := n - 0x10000
    let hi := 0xD800 + m / 1024
    let lo := 0xDC00 + m % 1024
    [hi % 256, hi / 256, lo % 256, lo / 256]

/-- Python `s.encode("utf-16")`: a little-endian BOM followed by UTF-16LE
code units. -/
def utf16Encode (s : String) : List Nat :=
  0xFF :: 0xFE :: s.data.flatMap (fun c => utf16leEncodeChar c.toNat)

/-- Universal-newline translation performed by text-mode `open(...)` in
Python: `\r\n` and a lone `\r` both become `\n`. -/
def nlTranslate : List Char → List Char
  | [] => []
  | c :: rest =>
    if c = '\r' then
      match rest with
      | '\n' :: rest2 => '\n' :: nlTranslate rest2
      | other => '\n' :: nlTranslate other
    else c :: nlTranslate rest

/-- Text read in text mode: decoded content with universal newlines. -/
def pyUniversalNewlines (s : String) : String :=
  ⟨nlTranslate s.data⟩

/-! ## Python exceptions -/

/-- The exception classes raised by the pipeline.  Python's `str(error)`
is the carried message. -/
inductive PyError where
  | fileNotFoundError (msg : String)
  | valueError (msg : String)
  | runtimeError (msg : String)
deriving DecidableEq

/-- `str(error)` for the exceptions above. -/
def PyError.msg : PyError → String
  | .fileNotFoundError m => m
  | .valueError m => m
  | .runtimeError m => m

/-! ## FileReader (`file_reader.py`) -/

/-- The ordered candidate decoders of `FileReader._read_txt`:
`encodings = ["utf-8", "gbk", "latin-1", "utf-16"]`. -/
def txtEncodings : List (String × (List Nat → Option String)) :=
  [("utf-8", utf8Decode), ("gbk", gbkDecodeStr), ("latin-1", latin1Decode), ("utf-16", utf16Decode)]

/-- Return the text-mode content from the first candidate whose decode of
the raw bytes succeeds (the `for encoding in encodings` loop). -/
def firstDecode : List (String × (List Nat → Option String)) → List Nat → Option String
  | [], _ => none
  | (_, dec) :: rest, bs =>
    match dec bs with
    | some content => some (pyUniversalNewlines content)
    | none => firstDecode rest bs

/-- `FileReader._read_txt`: try each candidate encoding in order and raise
`ValueError` when every candidate fails. -/
def read_txt (file_path : String) (bs : List Nat) : Except PyError String :=
  match firstDecode txtEncodings bs with
  | some content => .ok content
  | none => .error (.valueError ("无法解码文件: " ++ file_path))

/-- Segments of a path split at every slash (`"a/b".split("/")`),
produced left to right. -/
def pathSegs : List Char → List (List Char)
  | [] => [[]]
  | c :: rest =>
    match pathSegs rest with
    | [] => [[]]
    | seg :: segs => if c = '/' then [] :: seg :: segs else (c :: seg) :: segs

/-- `pathlib.PurePath(path).name`: the last non-empty path segment. -/
def pathName (path : String) : List Char :=
  ((pathSegs path.data).filter (fun seg => seg ≠ [])).getLastD []

/-- Index of the last dot of a name, if any. -/
def lastDotIdx (name : List Char) : Option Nat :=
  (name.reverse.findIdx? (fun c => c = '.')).map (fun j => name.length - 1 - j)

/-- `pathlib.PurePath(path).suffix`: the extension from the last dot of
the name, empty when the dot is the first or the last character. -/
def pathSuffix (path : String) : String :=
  let name := pathName path
  match lastDotIdx name with
  | some i => if 0 < i ∧ i < name.length - 1 then ⟨name.drop i⟩ else ""
  | none => ""

/-- Python `s.lower()` (ASCII-relevant part of `str.lower`). -/
def pyLower (s : String) : String :=
  ⟨s.data.map Char.toLower⟩

/-- The filesystem visible to the reader: a path → raw bytes association.
`os.path.exists(p)` is membership. -/
def FileSystem := List (String × List Nat)

/-- External document libraries used by `FileReader`: `python-docx` for
`.docx` and `olefile` for `.doc` are collaborators outside the modelled
core; each is an oracle from the path to extracted text or a raised
exception. -/
structure DocReaders where
  readDocx : String → Except PyError String
  readDoc : String → Except PyError String

/-- `FileReader.read_file`: existence check, then dispatch on the
lower-cased suffix (`match suffix: case '.txt' | '.docx' | '.doc'`),
raising `ValueError` on an unsupported extension. -/
def read_file (docs : DocReaders) (fs : FileSystem) (file_path : String) : Except PyError String :=
  match List.lookup file_path fs with
  | none => .error (.fileNotFoundError ("文件不存在: " ++ file_path))
  | some bs =>
    let suffix := pyLower (pathSuffix file_path)
    if suffix = ".txt" then read_txt file_path bs
    else if suffix = ".docx" then docs.readDocx file_path
    else if suffix = ".doc" then docs.readDoc file_path
    else .error (.valueError ("不支持的文件类型: " ++ suffix))

/-! ## FilenameSanitizer (`TextProcessor.clean_filename`) -/

/-- The characters of the regex class `FILENAME_SPECIAL_CHARS`
(`[\/:*?"<>|%#$@!^&()\[\]{};`...  in the source): filesystem-reserved and
shell-significant punctuation plus CJK sentence punctuation.  The three
characters written via `Char.ofNat` are `[`=0x5B-adjacent brace 0x7B,
brace 0x7D and the backtick 0x60. -/
def FILENAME_SPECIAL_CHARS : List Char :=
  ['/', ':', '*', '?', '"', '<', '>', '|', '%', '#', '$', '@', '!', '^',
   '&', '(', ')', '[', ']', Char.ofNat 0x7B, Char.ofNat 0x7D, ';',
   Char.ofNat 0x60, ',', '.', '~', '+', '=', '。', '，', '？', '！']

/-- Membership in the forbidden character class. -/
def isForbiddenChar (c : Char) : Bool :=
  FILENAME_SPECIAL_CHARS.contains c

/-- The class `[-\s]` of `consecutive_spaces_pattern`. -/
def isDashSpace (c : Char) : Bool :=
  c == '-' || pyIsSpace c

/-- Split off everything up to and including the first `'>'`: returns the
characters strictly before it and the characters after it. -/
def splitAtGt : List Char → Option (List Char × List Char)
  | [] => none
  | c :: rest =>
    if c = '>' then some ([], rest)
    else (splitAtGt rest).map (fun p => (c :: p.1, p.2))

theorem splitAtGt_length {l betw after : List Char}
    (h : splitAtGt l = some (betw, after)) : after.length < l.length := by
  induction l generalizing betw after with
  | nil => simp [splitAtGt] at h
  | cons c rest ih =>
    by_cases hc : c = '>'
    · simp [splitAtGt, hc] at h
      simp [h.2.symm]
    · simp only [splitAtGt, if_neg hc, Option.map_eq_some'] at h
      obtain ⟨⟨a, b⟩, hab, heq⟩ := h
      cases heq
      have := ih hab
      simp only [List.length_cons]
      omega

/-- `re.sub(r'<[^>]+>', '', text)`: the regex removes, scanning left to
right, each span from a `'<'` to the first following `'>'` provided at
least one character lies between them; a `'<'` with no such span is kept
and scanning resumes at the next character. -/
def removeMarkup : List Char → List Char
  | [] => []
  | c :: rest =>
    if c = '<' then
      match h : splitAtGt rest with
      | some (betw, after) =>
        if betw = [] then c :: removeMarkup rest else removeMarkup after
      | none => c :: removeMarkup rest
    else c :: removeMarkup rest
termination_by l => l.length
decreasing_by
  · simp only [List.length_cons]; omega
  · have := splitAtGt_length h
    simp only [List.length_cons]; omega
  · simp only [List.length_cons]; omega
  · simp only [List.length_cons]; omega

/-- `consecutive_spaces_pattern.sub(' ', text)`: every maximal run of
characters from `[-\s]` becomes a single space.  The flag records whether
the previous character belonged to the current run. -/
def collapseAux (inRun : Bool) : List Char → List Char
  | [] => []
  | c :: rest =>
    if isDashSpace c then
      (if inRun then [] else [' ']) ++ collapseAux true rest
    else c :: collapseAux false rest

/-- The character-list core of `TextProcessor.clean_filename`: markup
removal, forbidden-character filtering, run collapsing with strip, and a
200-character cap with `rstrip` after truncation. -/
def clean_filenameL (l : List Char) : List Char :=
  let cleaned1 := removeMarkup l
  let cleaned2 := cleaned1.filter (fun c => !isForbiddenChar c)
  let cleaned3 := pyStripL (collapseAux false cleaned2)
  if cleaned3.length > 200 then pyRstripL (cleaned3.take 200) else cleaned3

/-- `TextProcessor.clean_filename`. -/
def clean_filename (text : String) : String :=
  ⟨clean_filenameL text.data⟩

/-! ## SummarizationOrchestrator (`TextProcessor.generate_summary`)

The mT5 model, the tokenizer and the compute device live behind the
`transformers`/`torch` boundary; they are modelled as oracles.  A
generation call is recorded by the keyword arguments the code passes to
`model.generate`; float-valued parameters are scaled by ten to stay in
`Nat`.  Absent fields are keyword arguments the call does not pass. -/

/-- The keyword arguments of one `model.generate(...)` call. -/
structure GenerationCall where
  max_length : Option Nat
  min_length : Option Nat
  num_beams : Option Nat
  early_stopping : Option Bool
  no_repeat_ngram_size : Option Nat
  length_penalty_x10 : Option Nat
  repetition_penalty_x10 : Option Nat
  temperature_x10 : Option Nat
  do_sample : Option Bool
deriving DecidableEq

/-- The `generation_params` dict of the primary pass: beam search of
width 4, early stopping, trigram ban, length penalty 2.0, repetition
penalty 1.5, temperature 0.7, sampling enabled. -/
def primaryParams (max_length min_length : Nat) : GenerationCall :=
  { max_length := some max_length
    min_length := some min_length
    num_beams := some 4
    early_stopping := some true
    no_repeat_ngram_size := some 3
    length_penalty_x10 := some 20
    repetition_penalty_x10 := some 15
    temperature_x10 := some 7
    do_sample := some true }

/-- The keyword arguments of the fallback pass: only `max_length`,
`num_beams=1` and `early_stopping=True` are passed; `min_length` and
`do_sample` are left at their library defaults. -/
def fallbackParams (max_length : Nat) : GenerationCall :=
  { max_length := some max_length
    min_length := none
    num_beams := some 1
    early_stopping := some true
    no_repeat_ngram_size := none
    length_penalty_x10 := none
    repetition_penalty_x10 := none
    temperature_x10 := none
    do_sample := none }

/-- Events observable at the generation-model boundary. -/
inductive GenEvent where
  | load
  | generate (params : GenerationCall)
deriving DecidableEq, BEq

/-- The external capabilities consumed by `TextProcessor`: the one-shot
weight loading (`T5Tokenizer.from_pretrained` + `from_pretrained` +
device move) and the composite encode → generate → decode step, which
maps the prefixed input text and the call parameters to decoded text.
Tokenization (with its silent 512-token truncation) is absorbed into the
oracle.  `.docx`/`.doc` library readers ride along for `read_file`. -/
structure ModelEnv where
  loadModel : Except String Unit
  generate : String → GenerationCall → Except String String
  docs : DocReaders

/-- Mutable per-instance state of a `TextProcessor`: whether
`self.model` and `self.tokenizer` are both set. -/
structure TPState where
  modelLoaded : Bool
deriving DecidableEq

/-- `TextProcessor.load_model`: skip when the instance already holds a
model and tokenizer, otherwise perform the external load, raising
`RuntimeError` on failure.  The returned event list records whether the
expensive load was attempted. -/
def load_model (ext : ModelEnv) (s : TPState) : (Except PyError TPState) × List GenEvent :=
  if s.modelLoaded then (.ok s, [])
  else
    match ext.loadModel with
    | .ok _ => (.ok { modelLoaded := true }, [.load])
    | .error m => (.error (.runtimeError ("模型加载失败: " ++ m)), [.load])

/-- The `LANGUAGE_PREFIXES` mapping of `TextProcessor`. -/
def LANGUAGE_PREFIXES : List (String × String) :=
  [("en", "summarize English: "),
   ("zh", "总结中文: "),
   ("fr", "résume en français: "),
   ("es", "resumir en español: "),
   ("de", "fasse zusammen auf Deutsch: "),
   ("ru", "сделать резюме на русском: "),
   ("ja", "日本語で要約してください: "),
   ("ko", "한국어로 요약: "),
   ("ar", "لخص بالعربية: "),
   ("it", "riassumi in italiano: ")]

/-- `LANGUAGE_PREFIXES.get(language, LANGUAGE_PREFIXES["en"])`. -/
def promptOf (language : String) : String :=
  (List.lookup language LANGUAGE_PREFIXES).getD "summarize English: "

/-- The defensive strip of a prompt echo: if the decoded output starts
with the active prompt, drop it and strip surrounding whitespace. -/
def stripPromptEcho (pfx raw : String) : String :=
  if pyStartsWith raw pfx then pyStrip (pyDrop raw (pyLength pfx)) else raw

/-- `TextProcessor.generate_summary`: load the model if needed, build the
prefixed input, run the primary beam-search pass, strip a prompt echo,
and when the result has fewer than 3 words run the greedy fallback pass,
adopting its decode exactly when it has strictly more words; fallback
exceptions are swallowed.  Returns the new instance state, the events at
the model boundary, and the result or raised exception. -/
def generate_summary (ext : ModelEnv) (s : TPState) (text : String)
    (max_length : Nat := 30) (min_length : Nat := 10) (language : String := "en") :
    TPState × List GenEvent × Except PyError String :=
  match load_model ext s with
  | (.error e, evs) => (s, evs, .error e)
  | (.ok s1, evs) =>
    let summaryPfx := promptOf language
    let input_text := summaryPfx ++ text
    match ext.generate input_text (primaryParams max_length min_length) with
    | .error m =>
      (s1, evs ++ [.generate (primaryParams max_length min_length)],
       .error (.runtimeError ("摘要生成失败: " ++ m)))
    | .ok decoded =>
      let raw_summary := stripPromptEcho summaryPfx decoded
      let word_count := pyWordCount raw_summary
      if word_count < 3 then
        match ext.generate input_text (fallbackParams max_length) with
        | .error _ =>
          (s1, evs ++ [.generate (primaryParams max_length min_length),
                       .generate (fallbackParams max_length)],
           .ok raw_summary)
        | .ok fallback_summary =>
          (s1, evs ++ [.generate (primaryParams max_length min_length),
                       .generate (fallbackParams max_length)],
           .ok (if pyWordCount fallback_summary > word_count then fallback_summary
                else raw_summary))
      else
        (s1, evs ++ [.generate (primaryParams max_length min_length)], .ok raw_summary)

/-- `TextProcessor.process_file`: read the file, summarize its content,
sanitize the summary; any stage exception is re-raised as
`RuntimeError("文件处理失败: " + str(error))`. -/
def process_file (ext : ModelEnv) (fs : FileSystem) (s : TPState) (file_path : String)
    (language : String := "en") (max_length : Nat := 30) (min_length : Nat := 10) :
    TPState × List GenEvent × Except PyError String :=
  match read_file ext.docs fs file_path with
  | .error e => (s, [], .error (.runtimeError ("文件处理失败: " ++ e.msg)))
  | .ok file_content =>
    match generate_summary ext s file_content max_length min_length language with
    | (s1, evs, .error e) => (s1, evs, .error (.runtimeError ("文件处理失败: " ++ e.msg)))
    | (s1, evs, .ok raw_summary) => (s1, evs, .ok (clean_filename raw_summary))

/-- The events of one run, and the result. -/
def runEvents (r : TPState × List GenEvent × Except PyError String) : List GenEvent :=
  r.2.1

/-- The result component of a run. -/
def runResult (r : TPState × List GenEvent × Except PyError String) : Except PyError String :=
  r.2.2

/-- The model-boundary events of `FileProcessingThread.run`
(`window.py`, the per-file loop): for each dropped file a fresh
`TextProcessor()` is constructed and `process_file` invoked with default
options.  Renaming, progress signals and garbage collection have no
model-boundary effect and are omitted. -/
def threadRunEvents (ext : ModelEnv) (fs : FileSystem) (file_paths : List String) : List GenEvent :=
  file_paths.flatMap (fun p => runEvents (process_file ext fs { modelLoaded := false } p))

/-- Number of weight-load events in a trace. -/
def countLoads (evs : List GenEvent) : Nat :=
  (evs.filter (fun e => e == GenEvent.load)).length

/-! ## Sanitizer lemmas -/

theorem head?_dropWhile_false (p : α → Bool) (l : List α) (c : α)
    (h : (l.dropWhile p).head? = some c) : p c = false := by
  have hd := List.head?_dropWhile_not p l
  rw [h] at hd
  exact hd

theorem pyRstripL_prefixOf (l : List Char) : pyRstripL l <+: l := by
  unfold pyRstripL
  have h : l.reverse.dropWhile pyIsSpace <:+ l.reverse := List.dropWhile_suffix _
  have h2 := List.reverse_prefix.mpr h
  simpa using h2

theorem pyStripL_sub (l : List Char) : ∀ c ∈ pyStripL l, c ∈ l := by
  intro c hc
  have h1 : c ∈ l.dropWhile pyIsSpace :=
    (pyRstripL_prefixOf (l.dropWhile pyIsSpace)).subset hc
  exact (List.dropWhile_suffix pyIsSpace).subset h1

theorem head?_eq_of_prefixOf {l₁ l₂ : List α} (h : l₁ <+: l₂) (hne : l₁ ≠ []) :
    l₁.head? = l₂.head? := by
  obtain ⟨t, rfl⟩ := h
  cases l₁ with
  | nil => exact absurd rfl hne
  | cons c r => simp

theorem pyStripL_head (l : List Char) (c : Char)
    (h : (pyStripL l).head? = some c) : pyIsSpace c = false := by
  have hne : pyStripL l ≠ [] := by
    intro he
    rw [he] at h
    simp at h
  have hpre : pyStripL l <+: l.dropWhile pyIsSpace := pyRstripL_prefixOf _
  have := head?_eq_of_prefixOf hpre hne
  rw [h] at this
  exact head?_dropWhile_false pyIsSpace l c this.symm

theorem pyStripL_getLast (l : List Char) (c : Char)
    (h : (pyStripL l).getLast? = some c) : pyIsSpace c = false := by
  unfold pyStripL at h
  rw [List.getLast?_reverse] at h
  exact head?_dropWhile_false _ _ _ h

theorem pyRstripL_getLast (l : List Char) (c : Char)
    (h : (pyRstripL l).getLast? = some c) : pyIsSpace c = false := by
  unfold pyRstripL at h
  rw [List.getLast?_reverse] at h
  exact head?_dropWhile_false _ _ _ h

theorem dropWhile_eq_self_of_head (p : α → Bool) (l : List α)
    (h : ∀ c, l.head? = some c → p c = false) : l.dropWhile p = l := by
  cases l with
  | nil => rfl
  | cons c r => simp [List.dropWhile_cons, h c rfl]

theorem pyRstripL_eq_self (l : List Char)
    (h : ∀ c, l.getLast? = some c → pyIsSpace c = false) : pyRstripL l = l := by
  unfold pyRstripL
  rw [dropWhile_eq_self_of_head]
  · exact List.reverse_reverse l
  · intro c hc
    rw [List.head?_reverse] at hc
    exact h c hc

theorem pyStripL_eq_self (l : List Char)
    (hh : ∀ c, l.head? = some c → pyIsSpace c = false)
    (hl : ∀ c, l.getLast? = some c → pyIsSpace c = false) : pyStripL l = l := by
  unfold pyStripL
  rw [dropWhile_eq_self_of_head pyIsSpace l hh]
  exact pyRstripL_eq_self l hl

theorem mem_collapseAux {c : Char} : ∀ (l : List Char) (b : Bool),
    c ∈ collapseAux b l → c = ' ' ∨ (c ∈ l ∧ isDashSpace c = false) := by
  intro l
  induction l with
  | nil => intro b h; simp [collapseAux] at h
  | cons d rest ih =>
    intro b h
    by_cases hd : isDashSpace d = true
    · rw [collapseAux, if_pos hd] at h
      rcases List.mem_append.mp h with h1 | h2
      · left
        cases b <;> simp_all
      · rcases ih true h2 with h3 | h4
        · exact Or.inl h3
        · exact Or.inr ⟨List.mem_cons_of_mem d h4.1, h4.2⟩
    · rw [collapseAux, if_neg hd] at h
      rcases List.mem_cons.mp h with h1 | h2
      · subst h1
        exact Or.inr ⟨List.mem_cons_self c rest, by simpa using hd⟩
      · rcases ih false h2 with h3 | h4
        · exact Or.inl h3
        · exact Or.inr ⟨List.mem_cons_of_mem d h4.1, h4.2⟩

theorem head?_collapseAux_true : ∀ (l : List Char) (c : Char),
    (collapseAux true l).head? = some c → isDashSpace c = false := by
  intro l
  induction l with
  | nil => intro c h; simp [collapseAux] at h
  | cons d rest ih =>
    intro c h
    by_cases hd : isDashSpace d = true
    · rw [collapseAux, if_pos hd] at h
      simpa using ih c (by simpa using h)
    · rw [collapseAux, if_neg hd] at h
      simp at h
      rw [h] at hd
      simpa using hd

/-- A list is in collapsed form when every `[-\s]` character in it is a
single space followed (if at all) by a character outside the class. -/
def collapsedOK : List Char → Bool
  | [] => true
  | c :: rest =>
    (if isDashSpace c then c == ' ' && rest.head?.all (fun d => !isDashSpace d) else true)
      && collapsedOK rest

theorem collapsedOK_collapseAux : ∀ (l : List Char) (b : Bool),
    collapsedOK (collapseAux b l) = true := by
  intro l
  induction l with
  | nil => intro b; simp [collapseAux, collapsedOK]
  | cons d rest ih =>
    intro b
    by_cases hd : isDashSpace d = true
    · rw [collapseAux, if_pos hd]
      cases b with
      | true => simpa using ih true
      | false =>
        simp only [List.singleton_append, collapsedOK]
        have hsp : isDashSpace ' ' = true := by decide
        rw [if_pos hsp]
        refine (Bool.and_eq_true _ _).mpr ⟨?_, ih true⟩
        refine (Bool.and_eq_true _ _).mpr ⟨by decide, ?_⟩
        cases hh : (collapseAux true rest).head? with
        | none => simp [hh]
        | some e =>
          have he := head?_collapseAux_true rest e hh
          simp [hh, he]
    · rw [collapseAux, if_neg hd]
      simp only [collapsedOK]
      rw [if_neg hd]
      simpa using ih false

theorem collapsedOK_append_left : ∀ (l t : List Char),
    collapsedOK (l ++ t) = true → collapsedOK l = true := by
  intro l
  induction l with
  | nil => intro t _; rfl
  | cons c rest ih =>
    intro t h
    simp only [List.cons_append, collapsedOK] at h
    obtain ⟨h1, h2⟩ := (Bool.and_eq_true _ _).mp h
    simp only [collapsedOK]
    refine (Bool.and_eq_true _ _).mpr ⟨?_, ih t h2⟩
    by_cases hc : isDashSpace c = true
    · rw [if_pos hc] at h1 ⊢
      obtain ⟨h3, h4⟩ := (Bool.and_eq_true _ _).mp h1
      refine (Bool.and_eq_true _ _).mpr ⟨h3, ?_⟩
      cases rest with
      | nil => rfl
      | cons d r => simpa using h4
    · rw [if_neg hc]

theorem collapsedOK_append_right : ∀ (t l : List Char),
    collapsedOK (t ++ l) = true → collapsedOK l = true := by
  intro t
  induction t with
  | nil => intro l h; simpa using h
  | cons c rest ih =>
    intro l h
    simp only [List.cons_append, collapsedOK] at h
    exact ih l ((Bool.and_eq_true _ _).mp h).2

theorem collapsedOK_of_prefixOf {l₁ l₂ : List Char} (h : l₁ <+: l₂)
    (h2 : collapsedOK l₂ = true) : collapsedOK l₁ = true := by
  obtain ⟨t, rfl⟩ := h
  exact collapsedOK_append_left l₁ t h2

theorem collapsedOK_of_suffix {l₁ l₂ : List Char} (h : l₁ <:+ l₂)
    (h2 : collapsedOK l₂ = true) : collapsedOK l₁ = true := by
  obtain ⟨t, rfl⟩ := h
  exact collapsedOK_append_right t l₁ h2

theorem collapsedOK_pyStripL (l : List Char) (h : collapsedOK l = true) :
    collapsedOK (pyStripL l) = true := by
  have h1 : collapsedOK (l.dropWhile pyIsSpace) = true :=
    collapsedOK_of_suffix (List.dropWhile_suffix _) h
  exact collapsedOK_of_prefixOf (pyRstripL_prefixOf _) h1

/-- In collapsed form, re-running the collapsing substitution is the
identity (this is why repeated sanitization is stable). -/
theorem collapseAux_eq_self : ∀ (l : List Char), collapsedOK l = true →
    collapseAux false l = l ∧
      ((∀ c, l.head? = some c → isDashSpace c = false) → collapseAux true l = l) := by
  intro l
  induction l with
  | nil => intro _; exact ⟨rfl, fun _ => rfl⟩
  | cons c rest ih =>
    intro h
    simp only [collapsedOK] at h
    obtain ⟨h1, h2⟩ := (Bool.and_eq_true _ _).mp h
    obtain ⟨ihf, iht⟩ := ih h2
    by_cases hc : isDashSpace c = true
    · rw [if_pos hc] at h1
      obtain ⟨h3, h4⟩ := (Bool.and_eq_true _ _).mp h1
      have hcsp : c = ' ' := by simpa using h3
      have hresthead : ∀ d, rest.head? = some d → isDashSpace d = false := by
        intro d hd
        rw [hd] at h4
        simpa using h4
      constructor
      · rw [collapseAux, if_pos hc]
        simp only [List.singleton_append, List.nil_append, hcsp]
        rw [iht hresthead]
        rfl
      · intro hhead
        have := hhead c rfl
        rw [this] at hc
        exact absurd hc (by simp)
    · constructor
      · rw [collapseAux, if_neg hc, ihf]
      · intro _
        rw [collapseAux, if_neg hc, ihf]

theorem removeMarkup_eq_self : ∀ (l : List Char), '<' ∉ l → removeMarkup l = l := by
  intro l
  induction l with
  | nil => intro _; simp [removeMarkup]
  | cons c rest ih =>
    intro h
    have hc : ¬ c = '<' := by
      intro he
      exact h (he ▸ List.mem_cons_self c rest)
    have hrest : '<' ∉ rest := fun hm => h (List.mem_cons_of_mem c hm)
    rw [removeMarkup]
    rw [if_neg hc, ih hrest]

/-- Every character of the sanitized output already appears in the
collapsed, filtered intermediate list. -/
theorem mem_of_clean_filenameL {c : Char} {l : List Char}
    (h : c ∈ clean_filenameL l) :
    c ∈ collapseAux false ((removeMarkup l).filter (fun c => !isForbiddenChar c)) := by
  unfold clean_filenameL at h
  set S := pyStripL (collapseAux false ((removeMarkup l).filter (fun c => !isForbiddenChar c)))
    with hS
  by_cases hlen : S.length > 200
  · rw [if_pos hlen] at h
    have h1 : c ∈ S.take 200 := (pyRstripL_prefixOf (S.take 200)).subset h
    have h2 : c ∈ S := (List.take_prefix 200 S).subset h1
    exact pyStripL_sub _ c h2
  · rw [if_neg hlen] at h
    exact pyStripL_sub _ c h

theorem clean_filenameL_not_forbidden {c : Char} {l : List Char}
    (h : c ∈ clean_filenameL l) : isForbiddenChar c = false := by
  rcases mem_collapseAux _ _ (mem_of_clean_filenameL h) with h1 | h2
  · subst h1; decide
  · have := (List.mem_filter.mp h2.1).2
    simpa using this

theorem clean_filenameL_not_dash {c : Char} {l : List Char}
    (h : c ∈ clean_filenameL l) : c ≠ '-' := by
  rcases mem_collapseAux _ _ (mem_of_clean_filenameL h) with h1 | h2
  · subst h1; decide
  · intro he
    rw [he] at h2
    have : isDashSpace '-' = true := by decide
    rw [this] at h2
    exact absurd h2.2 (by simp)

theorem clean_filenameL_length (l : List Char) : (clean_filenameL l).length ≤ 200 := by
  simp only [clean_filenameL]
  set S := pyStripL (collapseAux false ((removeMarkup l).filter (fun c => !isForbiddenChar c)))
  by_cases hlen : S.length > 200
  · rw [if_pos hlen]
    have h1 : (pyRstripL (S.take 200)).length ≤ (S.take 200).length :=
      (pyRstripL_prefixOf (S.take 200)).length_le
    have h2 : (S.take 200).length ≤ 200 := by
      rw [List.length_take]
      exact Nat.min_le_left _ _
    omega
  · rw [if_neg hlen]
    omega

theorem clean_filenameL_head {c : Char} {l : List Char}
    (h : (clean_filenameL l).head? = some c) : pyIsSpace c = false := by
  unfold clean_filenameL at h
  set S := pyStripL (collapseAux false ((removeMarkup l).filter (fun c => !isForbiddenChar c)))
    with hS
  by_cases hlen : S.length > 200
  · rw [if_pos hlen] at h
    have hne : pyRstripL (S.take 200) ≠ [] := by
      intro he
      rw [he] at h
      simp at h
    have hpre : pyRstripL (S.take 200) <+: S :=
      (pyRstripL_prefixOf (S.take 200)).trans (List.take_prefix 200 S)
    have heq := head?_eq_of_prefixOf hpre hne
    rw [h] at heq
    exact pyStripL_head _ c heq.symm
  · rw [if_neg hlen] at h
    exact pyStripL_head _ c h

theorem clean_filenameL_getLast {c : Char} {l : List Char}
    (h : (clean_filenameL l).getLast? = some c) : pyIsSpace c = false := by
  unfold clean_filenameL at h
  set S := pyStripL (collapseAux false ((removeMarkup l).filter (fun c => !isForbiddenChar c)))
  by_cases hlen : S.length > 200
  · rw [if_pos hlen] at h
    exact pyRstripL_getLast _ c h
  · rw [if_neg hlen] at h
    exact pyStripL_getLast _ c h

theorem clean_filenameL_collapsedOK (l : List Char) :
    collapsedOK (clean_filenameL l) = true := by
  unfold clean_filenameL
  set S := pyStripL (collapseAux false ((removeMarkup l).filter (fun c => !isForbiddenChar c)))
  have hS : collapsedOK S = true :=
    collapsedOK_pyStripL _ (collapsedOK_collapseAux _ false)
  by_cases hlen : S.length > 200
  · rw [if_pos hlen]
    have h1 : collapsedOK (S.take 200) = true :=
      collapsedOK_of_prefixOf (List.take_prefix 200 S) hS
    exact collapsedOK_of_prefixOf (pyRstripL_prefixOf _) h1
  · rw [if_neg hlen]
    exact hS

/-- Sanitizing an already-sanitized list changes nothing. -/
theorem clean_filenameL_idem (l : List Char) :
    clean_filenameL (clean_filenameL l) = clean_filenameL l := by
  set y := clean_filenameL l with hy
  have hlt : '<' ∉ y := by
    intro hm
    have := clean_filenameL_not_forbidden (hy ▸ hm)
    rw [show isForbiddenChar '<' = true from by decide] at this
    exact absurd this (by simp)
  have hfilter : y.filter (fun c => !isForbiddenChar c) = y := by
    rw [List.filter_eq_self]
    intro a ha
    rw [clean_filenameL_not_forbidden (hy ▸ ha)]
    rfl
  have hcoll : collapseAux false y = y :=
    (collapseAux_eq_self y (clean_filenameL_collapsedOK l)).1
  have hstrip : pyStripL y = y := by
    apply pyStripL_eq_self
    · intro c hc
      exact clean_filenameL_head (hy ▸ hc)
    · intro c hc
      exact clean_filenameL_getLast (hy ▸ hc)
  have hlen : ¬ y.length > 200 := by
    have hl200 := clean_filenameL_length l
    rw [← hy] at hl200
    omega
  conv_lhs => simp only [clean_filenameL]
  rw [removeMarkup_eq_self y hlt, hfilter, hcoll, hstrip, if_neg hlen]

/-! ## UTF-8 round-trip -/

theorem utf8EncodeChar_eq1 {n : Nat} (h : n < 0x80) : utf8EncodeChar n = [n] := by
  simp [utf8EncodeChar, h]

theorem utf8EncodeChar_eq2 {n : Nat} (h1 : ¬ n < 0x80) (h2 : n < 0x800) :
    utf8EncodeChar n = [0xC0 + n / 64, 0x80 + n % 64] := by
  simp [utf8EncodeChar, h1, h2]

theorem utf8EncodeChar_eq3 {n : Nat} (h1 : ¬ n < 0x80) (h2 : ¬ n < 0x800) (h3 : n < 0x10000) :
    utf8EncodeChar n = [0xE0 + n / 4096, 0x80 + (n / 64) % 64, 0x80 + n % 64] := by
  simp [utf8EncodeChar, h1, h2, h3]

theorem utf8EncodeChar_eq4 {n : Nat} (h1 : ¬ n < 0x80) (h2 : ¬ n < 0x800) (h3 : ¬ n < 0x10000) :
    utf8EncodeChar n
      = [0xF0 + n / 262144, 0x80 + (n / 4096) % 64, 0x80 + (n / 64) % 64, 0x80 + n % 64] := by
  simp [utf8EncodeChar, h1, h2, h3]

theorem utf8EncodeChar_ne_nil (n : Nat) : utf8EncodeChar n ≠ [] := by
  unfold utf8EncodeChar
  split_ifs <;> simp

set_option maxRecDepth 4000 in
set_option maxHeartbeats 1000000 in
theorem utf8DecodeOne_encodeChar2 (c : Char) (rest : List Nat)
    (h1 : ¬ c.toNat < 0x80) (h2 : c.toNat < 0x800) :
    utf8DecodeOne (utf8EncodeChar c.toNat ++ rest) = some (c, rest) := by
  have hofn : Char.ofNat c.toNat = c := Char.ofNat_toNat c
  set n := c.toNat with hn
  rw [utf8EncodeChar_eq2 h1 h2, List.cons_append, List.cons_append, List.nil_append]
  rw [utf8DecodeOne.eq_def]
  dsimp only
  split_ifs <;>
    first
      | omega
      | (simp only [Option.some.injEq, Prod.mk.injEq, and_true]
         rw [← hofn]
         congr 1
         omega)

set_option maxRecDepth 4000 in
set_option maxHeartbeats 1600000 in
theorem utf8DecodeOne_encodeChar3 (c : Char) (rest : List Nat)
    (hv : c.toNat < 0xD800 ∨ (0xDFFF < c.toNat ∧ c.toNat < 0x110000))
    (h1 : ¬ c.toNat < 0x80) (h2 : ¬ c.toNat < 0x800) (h3 : c.toNat < 0x10000) :
    utf8DecodeOne (utf8EncodeChar c.toNat ++ rest) = some (c, rest) := by
  have hofn : Char.ofNat c.toNat = c := Char.ofNat_toNat c
  set n := c.toNat with hn
  rw [utf8EncodeChar_eq3 h1 h2 h3, List.cons_append, List.cons_append,
    List.cons_append, List.nil_append]
  rw [utf8DecodeOne.eq_def]
  dsimp only
  split_ifs <;>
    first
      | omega
      | (simp only [Option.some.injEq, Prod.mk.injEq, and_true]
         rw [← hofn]
         congr 1
         omega)

set_option maxRecDepth 8000 in
set_option maxHeartbeats 1600000 in
theorem utf8DecodeOne_encodeChar4 (c : Char) (rest : List Nat)
    (hv : c.toNat < 0xD800 ∨ (0xDFFF < c.toNat ∧ c.toNat < 0x110000))
    (h1 : ¬ c.toNat < 0x80) (h2 : ¬ c.toNat < 0x800) (h3 : ¬ c.toNat < 0x10000) :
    utf8DecodeOne (utf8EncodeChar c.toNat ++ rest) = some (c, rest) := by
  have hofn : Char.ofNat c.toNat = c := Char.ofNat_toNat c
  set n := c.toNat with hn
  rw [utf8EncodeChar_eq4 h1 h2 h3, List.cons_append, List.cons_append,
    List.cons_append, List.cons_append, List.nil_append]
  rw [utf8DecodeOne.eq_def]
  dsimp only
  split_ifs <;>
    first
      | omega
      | (simp only [Option.some.injEq, Prod.mk.injEq, and_true]
         rw [← hofn]
         congr 1
         omega)

/-- Parsing the UTF-8 encoding of any scalar value in front of a stream
yields that scalar and the untouched remainder. -/
theorem utf8DecodeOne_encodeChar (c : Char) (rest : List Nat) :
    utf8DecodeOne (utf8EncodeChar c.toNat ++ rest) = some (c, rest) := by
  have hv : c.toNat < 0xD800 ∨ (0xDFFF < c.toNat ∧ c.toNat < 0x110000) := c.valid
  have hofn : Char.ofNat c.toNat = c := Char.ofNat_toNat c
  by_cases h1 : c.toNat < 0x80
  · rw [utf8EncodeChar_eq1 h1, List.cons_append, List.nil_append]
    rw [utf8DecodeOne.eq_def]
    dsimp only
    rw [if_pos h1, hofn]
  · by_cases h2 : c.toNat < 0x800
    · exact utf8DecodeOne_encodeChar2 c rest h1 h2
    · by_cases h3 : c.toNat < 0x10000
      · exact utf8DecodeOne_encodeChar3 c rest hv h1 h2 h3
      · exact utf8DecodeOne_encodeChar4 c rest hv h1 h2 h3

theorem utf8DecodeFuel_flat : ∀ (cs : List Char) (f : Nat),
    (cs.flatMap (fun c => utf8EncodeChar c.toNat)).length ≤ f →
    utf8DecodeFuel f (cs.flatMap (fun c => utf8EncodeChar c.toNat)) = some cs := by
  intro cs
  induction cs with
  | nil =>
    intro f _
    simp [utf8DecodeFuel]
  | cons c cs ih =>
    intro f hf
    rw [List.flatMap_cons] at hf ⊢
    obtain ⟨e1, er, henc⟩ : ∃ e1 er, utf8EncodeChar c.toNat = e1 :: er := by
      cases hE : utf8EncodeChar c.toNat with
      | nil => exact absurd hE (utf8EncodeChar_ne_nil c.toNat)
      | cons a b => exact ⟨a, b, rfl⟩
    have hlen : 1 + er.length + (cs.flatMap (fun c => utf8EncodeChar c.toNat)).length ≤ f := by
      rw [henc] at hf
      simp only [List.length_append, List.length_cons] at hf
      omega
    obtain ⟨g, rfl⟩ : ∃ g, f = g + 1 := ⟨f - 1, by omega⟩
    rw [henc, List.cons_append]
    rw [utf8DecodeFuel]
    have hkey := utf8DecodeOne_encodeChar c (cs.flatMap (fun c => utf8EncodeChar c.toNat))
    rw [henc, List.cons_append] at hkey
    rw [hkey]
    dsimp only
    rw [ih g (by omega)]
    rfl

/-- Encoding then strictly decoding is the identity. -/
theorem utf8Decode_encode (s : String) : utf8Decode (utf8Encode s) = some s := by
  unfold utf8Decode utf8Encode
  rw [utf8DecodeFuel_flat s.data _ (Nat.le_refl _)]
  rfl

theorem nlTranslate_eq_self : ∀ (l : List Char), '\r' ∉ l → nlTranslate l = l := by
  intro l
  induction l with
  | nil => intro _; rfl
  | cons c rest ih =>
    intro h
    have hc : ¬ c = '\r' := fun he => h (he ▸ List.mem_cons_self c rest)
    have hrest : '\r' ∉ rest := fun hm => h (List.mem_cons_of_mem c hm)
    rw [nlTranslate.eq_def]
    dsimp only
    rw [if_neg hc, ih hrest]

/-- A `.txt` file whose bytes are the UTF-8 encoding of a CR-free text is
extracted to exactly that text (the first candidate decodes it, and
universal-newline translation is the identity without carriage returns). -/
theorem read_txt_utf8Encode (p : String) (s : String) (h : '\r' ∉ s.data) :
    read_txt p (utf8Encode s) = .ok s := by
  unfold read_txt txtEncodings
  rw [firstDecode]
  rw [utf8Decode_encode s]
  dsimp only
  unfold pyUniversalNewlines
  rw [nlTranslate_eq_self s.data h]

/-- latin-1 decoding is total. -/
theorem latin1Decode_isSome (bs : List Nat) : (latin1Decode bs).isSome = true := rfl

/-- The candidate scan never reaches the trailing UTF-16 entry: the first
three candidates already yield the same outcome as the whole list. -/
theorem firstDecode_take3 (bs : List Nat) :
    firstDecode txtEncodings bs = firstDecode (txtEncodings.take 3) bs := by
  unfold txtEncodings
  cases h1 : utf8Decode bs with
  | some c => simp [firstDecode, h1]
  | none =>
    cases h2 : gbkDecodeStr bs with
    | some c => simp [firstDecode, h1, h2]
    | none => simp [firstDecode, h1, h2, latin1Decode]

/-- `_read_txt` never raises: some candidate always decodes. -/
theorem read_txt_ok (p : String) (bs : List Nat) :
    ∃ content, read_txt p bs = .ok content := by
  unfold read_txt txtEncodings
  cases h1 : utf8Decode bs with
  | some c => exact ⟨pyUniversalNewlines c, by simp [firstDecode, h1]⟩
  | none =>
    cases h2 : gbkDecodeStr bs with
    | some c => exact ⟨pyUniversalNewlines c, by simp [firstDecode, h1, h2]⟩
    | none =>
      refine ⟨pyUniversalNewlines ⟨bs.map (fun b => Char.ofNat b)⟩, ?_⟩
      simp [firstDecode, h1, h2, latin1Decode]

/-! ## Orchestrator lemmas -/

theorem load_model_loaded (ext : ModelEnv) (s : TPState) (h : s.modelLoaded = true) :
    load_model ext s = (.ok s, []) := by
  unfold load_model
  rw [if_pos h]

/-! ## Claim theorems

Each claim of the specification audit is settled by exactly one theorem
(with a witness when the theorem carries hypotheses, and a concrete
counterexample where the original claim fails on the code). -/

/-- Library readers for formats that play no role in a scenario. -/
def noDocs : DocReaders :=
  ⟨fun _ => .error (.valueError "docx"), fun _ => .error (.valueError "doc")⟩

/-- Oracle for the C1 scenario: the primary pass decodes to an empty
string, the fallback pass echoes the English prompt in front of a
four-word summary. -/
def envC1 : ModelEnv :=
  { loadModel := .ok ()
    generate := fun _ p =>
      if p = fallbackParams 30 then .ok "summarize English: a b c d" else .ok ""
    docs := noDocs }

/-- Counterexample to C1: with `envC1` the degenerate primary decode
triggers the fallback, the adopted fallback decode begins with the
active English prefix, and `generate_summary` returns it verbatim —
prefix included — so the returned text does contain the active prompt
prefix. -/
theorem C1_counterexample :
    runResult (generate_summary envC1 ⟨false⟩ "t" 30 10 "en")
        = .ok "summarize English: a b c d"
      ∧ pyStartsWith "summarize English: a b c d" (promptOf "en") = true
      ∧ pyContainsSub "summarize English: a b c d" (promptOf "en") = true := by
  exact ⟨rfl, by decide, by decide⟩

/-- C1 (amended): the prompt-echo defense applies to the primary decode
only.  Whenever the primary pass succeeds, the returned summary is
either the prefix-stripped primary decode or a verbatim fallback decode;
an adopted fallback that begins with the active prefix is returned with
the prefix intact. -/
theorem C1_prompt_strip (ext : ModelEnv) (s : TPState) (text : String)
    (maxL minL : Nat) (lang : String) (r0 : String)
    (hload : s.modelLoaded = true)
    (hprimary : ext.generate (promptOf lang ++ text) (primaryParams maxL minL) = .ok r0) :
    runResult (generate_summary ext s text maxL minL lang)
        = .ok (stripPromptEcho (promptOf lang) r0)
      ∨ ∃ fb, ext.generate (promptOf lang ++ text) (fallbackParams maxL) = .ok fb ∧
          runResult (generate_summary ext s text maxL minL lang) = .ok fb := by
  unfold generate_summary
  rw [load_model_loaded ext s hload]
  dsimp only
  rw [hprimary]
  dsimp only
  by_cases hwc : pyWordCount (stripPromptEcho (promptOf lang) r0) < 3
  · rw [if_pos hwc]
    cases hfb : ext.generate (promptOf lang ++ text) (fallbackParams maxL) with
    | error m =>
      dsimp only [runResult]
      exact Or.inl rfl
    | ok fb =>
      dsimp only [runResult]
      by_cases hcmp : pyWordCount fb > pyWordCount (stripPromptEcho (promptOf lang) r0)
      · right
        exact ⟨fb, rfl, by rw [if_pos hcmp]⟩
      · left
        rw [if_neg hcmp]
  · rw [if_neg hwc]
    dsimp only [runResult]
    exact Or.inl rfl

/-- Witness for `C1_prompt_strip` at a concrete input: the state is
loaded, the primary decode is the prompt-echoed string
`"summarize English: x"`, and the conclusion holds there. -/
theorem C1_prompt_strip_witness :
    (TPState.mk true).modelLoaded = true
      ∧ (envC1.generate (promptOf "en" ++ "t") (primaryParams 30 10) = .ok ""
      ∧ (runResult (generate_summary envC1 ⟨true⟩ "t" 30 10 "en")
            = .ok (stripPromptEcho (promptOf "en") "")
          ∨ ∃ fb, envC1.generate (promptOf "en" ++ "t") (fallbackParams 30) = .ok fb ∧
              runResult (generate_summary envC1 ⟨true⟩ "t" 30 10 "en") = .ok fb)) :=
  ⟨rfl, rfl, C1_prompt_strip envC1 ⟨true⟩ "t" 30 10 "en" "" rfl rfl⟩

/-- Oracle for the C2 scenario: the primary decode is empty (zero
words), the fallback decode has four words. -/
def envC2 : ModelEnv :=
  { loadModel := .ok ()
    generate := fun _ p =>
      if p = fallbackParams 30 then .ok "w x y z" else .ok ""
    docs := noDocs }

/-- Counterexample to C2: in a run whose primary summary is degenerate
(word count 0 < 3), the fallback generation call is issued with
`fallbackParams 30`, whose `min_length` keyword is absent — the request
asked for `min_length = 10`, so the fallback does *not* run under both
length constraints of the request. -/
theorem C2_counterexample :
    runEvents (generate_summary envC2 ⟨false⟩ "t" 30 10 "en")
        = [.load, .generate (primaryParams 30 10), .generate (fallbackParams 30)]
      ∧ (primaryParams 30 10).min_length = some 10
      ∧ (fallbackParams 30).min_length = none := by
  exact ⟨rfl, rfl, rfl⟩

/-- C2 (amended): when the primary summary's word count is below 3, the
fallback pass is invoked with beam width 1 and no sampling, under the
same `max_length` bound as the request but without the request's
`min_length` bound (which is not passed to the fallback call). -/
theorem C2_fallback_params (ext : ModelEnv) (s : TPState) (text : String)
    (maxL minL : Nat) (lang : String) (r0 : String)
    (hload : s.modelLoaded = true)
    (hprimary : ext.generate (promptOf lang ++ text) (primaryParams maxL minL) = .ok r0)
    (hwc : pyWordCount (stripPromptEcho (promptOf lang) r0) < 3) :
    runEvents (generate_summary ext s text maxL minL lang)
        = [.generate (primaryParams maxL minL), .generate (fallbackParams maxL)]
      ∧ (fallbackParams maxL).num_beams = some 1
      ∧ (fallbackParams maxL).do_sample = none
      ∧ (fallbackParams maxL).max_length = some maxL
      ∧ (fallbackParams maxL).min_length = none := by
  refine ⟨?_, rfl, rfl, rfl, rfl⟩
  unfold generate_summary
  rw [load_model_loaded ext s hload]
  dsimp only
  rw [hprimary]
  dsimp only
  rw [if_pos hwc]
  cases hfb : ext.generate (promptOf lang ++ text) (fallbackParams maxL) with
  | error m => rfl
  | ok fb => rfl

/-- Witness for `C2_fallback_params` on a loaded instance with an empty
primary decode. -/
theorem C2_fallback_params_witness :
    (TPState.mk true).modelLoaded = true
      ∧ envC2.generate (promptOf "en" ++ "t") (primaryParams 30 10) = .ok ""
      ∧ pyWordCount (stripPromptEcho (promptOf "en") "") < 3
      ∧ (runEvents (generate_summary envC2 ⟨true⟩ "t" 30 10 "en")
            = [.generate (primaryParams 30 10), .generate (fallbackParams 30)]
          ∧ (fallbackParams 30).num_beams = some 1
          ∧ (fallbackParams 30).do_sample = none
          ∧ (fallbackParams 30).max_length = some 30
          ∧ (fallbackParams 30).min_length = none) :=
  ⟨rfl, rfl, by decide,
   C2_fallback_params envC2 ⟨true⟩ "t" 30 10 "en" "" rfl rfl (by decide)⟩

theorem listContainsRun_append_self (pre sub : List Char) :
    listContainsRun sub (pre ++ sub) = true := by
  induction pre with
  | nil =>
    cases sub with
    | nil => simp [listContainsRun, List.isPrefixOf]
    | cons c rest => simp [listContainsRun, List.isPrefixOf_iff_prefix]
  | cons c pre ih =>
    rw [List.cons_append, listContainsRun, ih, Bool.or_true]

/-- A string is a substring of anything obtained by prepending to it. -/
theorem pyContainsSub_append (pre s : String) :
    pyContainsSub (pre ++ s) s = true := by
  unfold pyContainsSub
  rw [String.data_append]
  exact listContainsRun_append_self pre.data s.data

/-- Oracle for scenarios in which the model is never reached or the
decode is irrelevant. -/
def envPlain : ModelEnv :=
  { loadModel := .ok ()
    generate := fun _ _ => .ok "a decent summary here"
    docs := noDocs }

/-- C3 (amended): for every path missing from the filesystem,
`process_file` fails with a `RuntimeError` wrapping the NotFound stage
message — a message that contains the original path — and performs no
generation-model call (no load, no generate event).  Other stage
failures are wrapped the same way with the failing stage's message,
which for an unsupported extension names only the extension (see the
counterexample). -/
theorem C3_not_found (ext : ModelEnv) (fs : FileSystem) (s : TPState)
    (path lang : String) (maxL minL : Nat)
    (h : List.lookup path fs = none) :
    process_file ext fs s path lang maxL minL
        = (s, [], .error (.runtimeError ("文件处理失败: " ++ ("文件不存在: " ++ path))))
      ∧ pyContainsSub ("文件处理失败: " ++ ("文件不存在: " ++ path)) path = true := by
  constructor
  · unfold process_file read_file
    rw [h]
    dsimp only [PyError.msg]
  · have := pyContainsSub_append ("文件处理失败: " ++ "文件不存在: ") path
    rw [String.append_assoc] at this
    exact this

/-- Witness for `C3_not_found`: an empty filesystem and the path
`"missing.txt"`. -/
theorem C3_not_found_witness :
    List.lookup "missing.txt" ([] : FileSystem) = none
      ∧ (process_file envPlain [] ⟨false⟩ "missing.txt" "en" 30 10
            = (⟨false⟩, [], .error (.runtimeError
                ("文件处理失败: " ++ ("文件不存在: " ++ "missing.txt"))))
          ∧ pyContainsSub ("文件处理失败: " ++ ("文件不存在: " ++ "missing.txt"))
              "missing.txt" = true) :=
  ⟨rfl, C3_not_found envPlain [] ⟨false⟩ "missing.txt" "en" 30 10 rfl⟩

/-- A filesystem holding one PDF file. -/
def fsC3 : FileSystem := [("docs/report.pdf", [37, 80, 68, 70])]

/-- Counterexample to C3: for an existing file with the unsupported
extension `.pdf`, the failure reported to the caller is
`RuntimeError("文件处理失败: 不支持的文件类型: .pdf")` — the message carries
the failing stage's text but not the original path, so stage failures
are not in general reported "together with the original path". -/
theorem C3_counterexample :
    runResult (process_file envPlain fsC3 ⟨false⟩ "docs/report.pdf" "en" 30 10)
        = .error (.runtimeError "文件处理失败: 不支持的文件类型: .pdf")
      ∧ pyContainsSub "文件处理失败: 不支持的文件类型: .pdf" "docs/report.pdf" = false := by
  exact ⟨rfl, by decide⟩

/-- Counterexample to C4: a `.txt` file written in UTF-16 (`"hi"`,
encoded with the little-endian BOM) is *not* extracted to its original
content: UTF-8 and GBK both reject the leading `0xFF`, and the total
latin-1 candidate decodes the raw bytes to mojibake before the UTF-16
candidate is ever consulted. -/
theorem C4_counterexample :
    utf16Encode "hi" = [0xFF, 0xFE, 0x68, 0x00, 0x69, 0x00]
      ∧ read_txt "f.txt" (utf16Encode "hi") = .ok "ÿþh\x00i\x00"
      ∧ read_txt "f.txt" (utf16Encode "hi") ≠ .ok "hi" := by
  refine ⟨rfl, rfl, fun h => ?_⟩
  exact absurd
    (Except.ok.inj ((show read_txt "f.txt" (utf16Encode "hi")
        = .ok "ÿþh\x00i\x00" from rfl).symm.trans h))
    (by decide)

/-- C4 (amended): a `.txt` file whose bytes were written in UTF-8 — the
first candidate — is extracted to its original content whenever that
content is free of carriage returns (text-mode reading rewrites CR and
CRLF to LF); files written in a later candidate encoding may instead be
decoded by an earlier succeeding candidate, so they need not round-trip
(see the counterexample), and the DecodeFailure error is raised exactly
when all four candidates fail. -/
theorem C4_utf8_roundtrip (p s : String) (h : '\r' ∉ s.data) :
    read_txt p (utf8Encode s) = .ok s :=
  read_txt_utf8Encode p s h

/-- Witness for `C4_utf8_roundtrip` on the content `"hello world"`. -/
theorem C4_utf8_roundtrip_witness :
    '\r' ∉ ("hello world" : String).data
      ∧ read_txt "a.txt" (utf8Encode "hello world") = .ok "hello world" :=
  ⟨by decide, C4_utf8_roundtrip "a.txt" "hello world" (by decide)⟩

/-- Two plain-text files, as dropped on the worker thread. -/
def fsC5 : FileSystem := [("a.txt", utf8Encode "hello"), ("b.txt", utf8Encode "hello")]

/-- Counterexample to C5: processing a two-file batch in one process
performs two weight loads — `FileProcessingThread.run` constructs a
fresh `TextProcessor()` for every file, so the handle is per-instance,
not process-wide, and the weights are not loaded at most once. -/
theorem C5_counterexample :
    countLoads (threadRunEvents envPlain fsC5 ["a.txt", "b.txt"]) = 2 := by
  rfl

/-- C5 (amended): the handle is per `TextProcessor` instance: on an
instance whose model and tokenizer are already loaded, a summarization
call performs no further load event and leaves the handle state
untouched; the worker thread, however, creates a new instance per file,
so the weights are loaded once per processed file (see the
counterexample). -/
theorem C5_instance_reuse (ext : ModelEnv) (s : TPState) (text : String)
    (maxL minL : Nat) (lang : String)
    (hload : s.modelLoaded = true) :
    countLoads (runEvents (generate_summary ext s text maxL minL lang)) = 0
      ∧ (generate_summary ext s text maxL minL lang).1 = s := by
  unfold generate_summary
  rw [load_model_loaded ext s hload]
  dsimp only
  cases hp : ext.generate (promptOf lang ++ text) (primaryParams maxL minL) with
  | error m => exact ⟨rfl, rfl⟩
  | ok r0 =>
    dsimp only
    by_cases hwc : pyWordCount (stripPromptEcho (promptOf lang) r0) < 3
    · rw [if_pos hwc]
      cases hfb : ext.generate (promptOf lang ++ text) (fallbackParams maxL) with
      | error m => exact ⟨rfl, rfl⟩
      | ok fb => exact ⟨rfl, rfl⟩
    · rw [if_neg hwc]
      exact ⟨rfl, rfl⟩

/-- Witness for `C5_instance_reuse` on a loaded instance. -/
theorem C5_instance_reuse_witness :
    (TPState.mk true).modelLoaded = true
      ∧ (countLoads (runEvents (generate_summary envPlain ⟨true⟩ "text" 30 10 "en")) = 0
          ∧ (generate_summary envPlain ⟨true⟩ "text" 30 10 "en").1 = TPState.mk true) :=
  ⟨rfl, C5_instance_reuse envPlain ⟨true⟩ "text" 30 10 "en" rfl⟩

/-- C6: for arbitrary input text the sanitized output contains no
character of the forbidden set, is at most 200 characters long, and
neither starts nor ends with whitespace; `clean_filename` is a total
function. -/
theorem C6_sanitize_safe (x : String) :
    (clean_filename x).data.all (fun c => !isForbiddenChar c) = true
      ∧ (clean_filename x).data.length ≤ 200
      ∧ (clean_filename x).data.head?.all (fun c => !pyIsSpace c) = true
      ∧ (clean_filename x).data.getLast?.all (fun c => !pyIsSpace c) = true := by
  have hdata : (clean_filename x).data = clean_filenameL x.data := rfl
  refine ⟨?_, ?_, ?_, ?_⟩
  · rw [hdata, List.all_eq_true]
    intro c hc
    simp [clean_filenameL_not_forbidden hc]
  · rw [hdata]
    exact clean_filenameL_length x.data
  · rw [hdata]
    cases hh : (clean_filenameL x.data).head? with
    | none => rfl
    | some c => simp [clean_filenameL_head hh]
  · rw [hdata]
    cases hh : (clean_filenameL x.data).getLast? with
    | none => rfl
    | some c => simp [clean_filenameL_getLast hh]

/-- C7: in the quality-gate fallback the fallback decode is adopted
exactly when its word count strictly exceeds the primary result's word
count, otherwise the primary result is kept even if still short, and an
exception during the fallback pass is swallowed so the primary result is
returned. -/
theorem C7_acceptance_policy (ext : ModelEnv) (s : TPState) (text : String)
    (maxL minL : Nat) (lang : String) (r0 : String)
    (hload : s.modelLoaded = true)
    (hprimary : ext.generate (promptOf lang ++ text) (primaryParams maxL minL) = .ok r0)
    (hwc : pyWordCount (stripPromptEcho (promptOf lang) r0) < 3) :
    (∀ fb, ext.generate (promptOf lang ++ text) (fallbackParams maxL) = .ok fb →
        runResult (generate_summary ext s text maxL minL lang)
          = .ok (if pyWordCount fb > pyWordCount (stripPromptEcho (promptOf lang) r0) then fb
                 else stripPromptEcho (promptOf lang) r0))
      ∧ (∀ m, ext.generate (promptOf lang ++ text) (fallbackParams maxL) = .error m →
        runResult (generate_summary ext s text maxL minL lang)
          = .ok (stripPromptEcho (promptOf lang) r0)) := by
  constructor
  · intro fb hfb
    unfold generate_summary
    rw [load_model_loaded ext s hload]
    dsimp only
    rw [hprimary]
    dsimp only
    rw [if_pos hwc, hfb]
    rfl
  · intro m hm
    unfold generate_summary
    rw [load_model_loaded ext s hload]
    dsimp only
    rw [hprimary]
    dsimp only
    rw [if_pos hwc, hm]
    rfl

/-- Witness for `C7_acceptance_policy` under `envC2` (primary decode
empty, fallback four words). -/
theorem C7_acceptance_policy_witness :
    (TPState.mk true).modelLoaded = true
      ∧ envC2.generate (promptOf "en" ++ "t") (primaryParams 30 10) = .ok ""
      ∧ pyWordCount (stripPromptEcho (promptOf "en") "") < 3
      ∧ ((∀ fb, envC2.generate (promptOf "en" ++ "t") (fallbackParams 30) = .ok fb →
            runResult (generate_summary envC2 ⟨true⟩ "t" 30 10 "en")
              = .ok (if pyWordCount fb > pyWordCount (stripPromptEcho (promptOf "en") "")
                     then fb else stripPromptEcho (promptOf "en") ""))
          ∧ (∀ m, envC2.generate (promptOf "en" ++ "t") (fallbackParams 30) = .error m →
            runResult (generate_summary envC2 ⟨true⟩ "t" 30 10 "en")
              = .ok (stripPromptEcho (promptOf "en") ""))) :=
  ⟨rfl, rfl, by decide,
   C7_acceptance_policy envC2 ⟨true⟩ "t" 30 10 "en" "" rfl rfl (by decide)⟩

/-- C8: the sanitizer is idempotent — applying `clean_filename` to its
own output returns that output unchanged. -/
theorem C8_sanitize_idempotent (x : String) :
    clean_filename (clean_filename x) = clean_filename x := by
  show (⟨clean_filenameL (clean_filenameL x.data)⟩ : String) = ⟨clean_filenameL x.data⟩
  rw [clean_filenameL_idem]

/-- C9: hyphens never survive sanitization — the collapsing step turns
every run of hyphens and whitespace (a single hyphen included) into one
space, even though `'-'` is not in the forbidden set. -/
theorem C9_no_hyphen (x : String) :
    (clean_filename x).data.contains '-' = false := by
  rw [Bool.eq_false_iff]
  intro hc
  have hm : '-' ∈ (clean_filename x).data := by simpa using hc
  exact clean_filenameL_not_dash hm rfl

/-- C10: the all-candidates-failed branch of `_read_txt` is unreachable:
latin-1 decodes every byte sequence, the candidate scan has the same
outcome as its first three entries (the trailing UTF-16 candidate is
never consulted), and extraction always succeeds, so the DecodeFailure
error is never raised. -/
theorem C10_latin1_unreachable (p : String) (bs : List Nat) :
    (latin1Decode bs).isSome = true
      ∧ firstDecode txtEncodings bs = firstDecode (txtEncodings.take 3) bs
      ∧ ∃ content, read_txt p bs = .ok content :=
  ⟨latin1Decode_isSome bs, firstDecode_take3 bs, read_txt_ok p bs⟩
